import Mathlib

set_option linter.unusedVariables false
set_option maxRecDepth 4096

/-!
Shallow embedding of the Gmail-to-S3 invoice ingestion pipeline
(`helper_functions.py`, `main.py`) and proofs about it.

Modelling conventions:
* Python dicts keyed by message/attachment id are modelled as association
  lists (`List (String × _)`) in insertion order; dict keys are unique in
  the source (Gmail ids, batch request ids), so append models `dict.update`.
* The remote Gmail service is modelled by per-id oracles
  (`String → Except String α`): `Except.ok` is a callback response,
  `Except.error` is the per-request exception handed to the callback.
* `hashlib.sha256(...).hexdigest()` is modelled by an arbitrary function
  `sha : String → String`; the source truncates the hex digest to 4
  characters, which the embedding performs with `strTake 4`.
* Python string operations are modelled by executable functions over the
  underlying character list (`strLower`, `strEndsWith`, `strTakeRight`,
  `replaceChar`, ...), faithful to Python slicing/`in`/`endswith`
  semantics on the inputs the pipeline handles.
* A Python exception escaping a function is modelled as `Except.error`;
  logging calls and `time.sleep` pacing have no observable effect on the
  values computed and are dropped.
-/

/-- Python `str.lower` on one character, restricted to ASCII (all strings
the pipeline compares case-insensitively are ASCII header values and
filenames). -/
def lowerAsciiChar (c : Char) : Char :=
  if 'A' ≤ c && c ≤ 'Z' then Char.ofNat (c.toNat + 32) else c

/-- Python `str.lower` (ASCII). -/
def strLower (s : String) : String := String.mk (s.data.map lowerAsciiChar)

/-- Auxiliary loop of `splitOnChar`, accumulating the current field in
reverse. -/
def splitOnCharAux (c : Char) : List Char → List Char → List String
  | [], acc => [String.mk acc.reverse]
  | x :: xs, acc =>
    if x == c then String.mk acc.reverse :: splitOnCharAux c xs []
    else splitOnCharAux c xs (x :: acc)

/-- Python `s.split(sep)` for a one-character separator (the source only
splits on "@" and "+"). -/
def splitOnChar (c : Char) (s : String) : List String := splitOnCharAux c s.data []

/-- Everything after the first occurrence of `c`: Python
`s.split(c, 1)[1]` when `c in s`. -/
def afterFirstCharAux (c : Char) : List Char → List Char
  | [] => []
  | x :: xs => if x == c then xs else afterFirstCharAux c xs

/-- Everything after the first occurrence of `c` (Python `s.split(c, 1)[1]`
when `c` occurs in `s`, else the empty string). -/
def afterFirstChar (c : Char) (s : String) : String := String.mk (afterFirstCharAux c s.data)

/-- Everything before the first occurrence of `c`: Python `s.split(c)[0]`. -/
def beforeFirstChar (c : Char) (s : String) : String :=
  String.mk (s.data.takeWhile (fun x => x != c))

/-- Python `c in s` for a one-character needle. -/
def strContainsChar (s : String) (c : Char) : Bool := s.data.contains c

/-- Python `str.strip()` (whitespace at both ends). -/
def trimWs (s : String) : String :=
  String.mk (((s.data.dropWhile Char.isWhitespace).reverse.dropWhile Char.isWhitespace).reverse)

/-- Python `s.endswith(suffix)`. -/
def strEndsWith (s suffix : String) : Bool :=
  s.data.drop (s.data.length - suffix.data.length) == suffix.data

/-- Python `s[:n]` for `n ≥ 0`. -/
def strTake (n : Nat) (s : String) : String := String.mk (s.data.take n)

/-- Python `s[-n:]` for `n > 0` (the whole string when it is shorter than
`n`, exactly as slicing clamps). -/
def strTakeRight (n : Nat) (s : String) : String :=
  String.mk (s.data.drop (s.data.length - n))

/-- Python `s[:-n]` for `n > 0` (empty when `s` has at most `n`
characters). -/
def strDropRight (n : Nat) (s : String) : String :=
  String.mk (s.data.take (s.data.length - n))

/-- Python `s.replace(old, new)` for one-character `old`/`new` (the source
only replaces "/" by "-"). -/
def replaceChar (c₁ c₂ : Char) (s : String) : String :=
  String.mk (s.data.map (fun c => if c == c₁ then c₂ else c))

/-- Metadata entry stored in `metadata_lookup` (main.py lines 199-202):
vendor string and date string in MM/DD/YYYY format. -/
structure MetadataEntry where
  vendor : String
  date : String
deriving DecidableEq, Repr

/-- Embedding of `create_filename` (helper_functions.py lines 44-71).
`sha` models `hashlib.sha256(·.encode()).hexdigest()`.  When `message_id`
is missing from the lookup the source returns `f"unknown_{filename}"`
(lines 49-51).  Otherwise it replaces `/` with `-` in the date, computes
the 4-hex-char hash of `f"{message_id}_{attachment_id}"`, and classifies
the extension by comparing `filename[-3:]` (case-sensitively) with "pdf"
and "csv"; if neither matches, the local `file_type` is never assigned and
line 70 raises `UnboundLocalError`, modelled as `Except.error`.
Python `filename[-3:]`/`filename[:-3]` are `strTakeRight 3` /
`strDropRight 3` (both clamp on short strings exactly as slicing does). -/
def create_filename (sha : String → String) (attachment_id message_id filename : String)
    (metadata_lookup : List (String × MetadataEntry)) : Except String String :=
  match metadata_lookup.lookup message_id with
  | none => Except.ok ("unknown_" ++ filename)
  | some entry =>
    let vendor := entry.vendor
    let date := replaceChar '/' '-' entry.date
    let messageid_attachment_id := message_id ++ "_" ++ attachment_id
    let hash := strTake 4 (sha messageid_attachment_id)
    let file_type : Option String :=
      if strTakeRight 3 filename == "pdf" then some "pdf"
      else if strTakeRight 3 filename == "csv" then some "csv"
      else none
    match file_type with
    | none => Except.error "UnboundLocalError: local variable file_type referenced before assignment"
    | some ft =>
        Except.ok (vendor ++ "_" ++ date ++ "_" ++ strDropRight 3 filename ++ "_" ++ hash ++ "." ++ ft)

/-- C1: Key derivation is deterministic: two calls of `create_filename`
with the same (attachment id, message id, filename) and the same metadata
lookup containing the owner id return the same archive-key result, for any
fixed hash function — the embedding is a pure function of its inputs. -/
theorem create_filename_deterministic (sha : String → String)
    (attachment_id message_id filename : String)
    (metadata_lookup : List (String × MetadataEntry))
    (hmem : (metadata_lookup.lookup message_id).isSome) :
    create_filename sha attachment_id message_id filename metadata_lookup =
      create_filename sha attachment_id message_id filename metadata_lookup := rfl

/-- Witness for C1 at a concrete attachment: the lookup contains the owner
id and the two (identical) calls agree. -/
theorem create_filename_deterministic_witness :
    ((([("m1", MetadataEntry.mk "Acme" "01/02/2025")] : List (String × MetadataEntry)).lookup "m1").isSome) ∧
    create_filename (fun _ => "0a1b2c3d") "a1" "m1" "invoice.pdf" [("m1", MetadataEntry.mk "Acme" "01/02/2025")] =
      create_filename (fun _ => "0a1b2c3d") "a1" "m1" "invoice.pdf" [("m1", MetadataEntry.mk "Acme" "01/02/2025")] :=
  ⟨by decide,
   create_filename_deterministic (fun _ => "0a1b2c3d") "a1" "m1" "invoice.pdf"
     [("m1", MetadataEntry.mk "Acme" "01/02/2025")] (by decide)⟩

/-- C8 (code bug): with the owner id present in the lookup and an
unrecognized extension (`report.txt`, neither "pdf" nor "csv" as the last
three characters), `create_filename` raises: neither branch at
helper_functions.py lines 63-66 assigns `file_type`, so line 70 raises
`UnboundLocalError` — an exception escapes the derive call instead of a
best-effort key. -/
theorem create_filename_txt_raises :
    create_filename (fun _ => "0a1b2c3d") "a1" "m1" "report.txt"
      [("m1", MetadataEntry.mk "Acme" "01/02/2025")] =
      Except.error "UnboundLocalError: local variable file_type referenced before assignment" := rfl

/-- C10: when the owning message id is absent from the metadata lookup,
`create_filename` does not fail: it returns `"unknown_" ++ filename`
(helper_functions.py lines 49-51), a key with no vendor, no date and no
hash suffix. -/
theorem create_filename_unknown (sha : String → String)
    (attachment_id message_id filename : String)
    (metadata_lookup : List (String × MetadataEntry))
    (habs : metadata_lookup.lookup message_id = none) :
    create_filename sha attachment_id message_id filename metadata_lookup =
      Except.ok ("unknown_" ++ filename) := by
  unfold create_filename
  rw [habs]

/-- Witness for C10: a message id absent from an empty lookup yields the
`unknown_`-prefixed raw filename. -/
theorem create_filename_unknown_witness :
    (([] : List (String × MetadataEntry)).lookup "m9" = none) ∧
    create_filename (fun _ => "0a1b2c3d") "a7" "m9" "report.PDF" [] =
      Except.ok ("unknown_" ++ "report.PDF") :=
  ⟨by decide, create_filename_unknown (fun _ => "0a1b2c3d") "a7" "m9" "report.PDF" [] (by decide)⟩

/-- Embedding of `_process_metadata_batch` (main.py lines 84-130): one
multiplexed batch request over `message_ids`.  `respond` models the per-id
callback outcome (`Except.ok` = response recorded into the map,
`Except.error` = exception logged and the id skipped).  The result models
the `message_metadata_map` dict in insertion order; `α` is the (untyped in
Python) response payload. -/
def _process_metadata_batch {α : Type} (respond : String → Except String α)
    (message_ids : List String) : List (String × α) :=
  message_ids.filterMap (fun msg_id =>
    match respond msg_id with
    | Except.ok response => some (msg_id, response)
    | Except.error _ => none)

/-- The chunking performed by `get_messages_metadata_batch` (main.py lines
61-67): `total_batches = (len + batch_size - 1) // batch_size` and chunk
`batch_num` is `message_ids[batch_num*batch_size : batch_num*batch_size + batch_size]`,
modelled with `drop`/`take` (which clamp exactly as Python slicing does). -/
def batchSlices {α : Type} (ids : List α) (batch_size : Nat) : List (List α) :=
  (List.range ((ids.length + batch_size - 1) / batch_size)).map
    (fun batch_num => (ids.drop (batch_num * batch_size)).take batch_size)

/-- Embedding of `get_messages_metadata_batch` (main.py lines 44-81):
early-return `{}` on an empty id list, otherwise process each chunk with
`_process_metadata_batch` and merge with `dict.update` (modelled as list
append; Gmail message ids used as batch request ids are unique).  The
inter-batch `time.sleep` has no effect on the computed mapping. -/
def get_messages_metadata_batch {α : Type} (respond : String → Except String α)
    (message_ids : List String) (batch_size : Nat) : List (String × α) :=
  match message_ids with
  | [] => []
  | x :: xs =>
    (batchSlices (x :: xs) batch_size).foldl
      (fun acc chunk => acc ++ _process_metadata_batch respond chunk) []

/-- Ceiling-division step: for a nonempty list, the number of batches is
one more than the number of batches of the list with its first chunk
removed. -/
theorem totalBatches_succ (n bs : Nat) (hbs : 0 < bs) (hn : 0 < n) :
    (n + bs - 1) / bs = ((n - bs) + bs - 1) / bs + 1 := by
  obtain ⟨m, rfl⟩ : ∃ m, n = m + 1 := ⟨n - 1, by omega⟩
  have hL : (m + 1 + bs - 1) / bs = m / bs + 1 := by
    have : m + 1 + bs - 1 = m + bs := by omega
    rw [this, Nat.add_div_right _ hbs]
  rw [hL]
  rcases le_or_lt (m + 1) bs with hle | hlt
  · have h1 : m + 1 - bs = 0 := by omega
    have h2 : (0 + bs - 1) / bs = 0 := Nat.div_eq_of_lt (by omega)
    have h3 : m / bs = 0 := Nat.div_eq_of_lt (by omega)
    rw [h1, h2, h3]
  · have h1 : (m + 1 - bs) + bs - 1 = (m - bs) + bs := by omega
    rw [h1, Nat.add_div_right _ hbs]
    have h2 : m / bs = (m - bs) / bs + 1 := Nat.div_eq_sub_div hbs (by omega)
    rw [h2]

/-- Unfolding of the index-based chunking as head chunk plus chunking of
the rest. -/
theorem batchSlices_cons {α : Type} (bs : Nat) (hbs : 0 < bs) (ids : List α)
    (hne : ids ≠ []) :
    batchSlices ids bs = ids.take bs :: batchSlices (ids.drop bs) bs := by
  unfold batchSlices
  have hn : 0 < ids.length := List.length_pos.mpr hne
  have hdrop : (ids.drop bs).length = ids.length - bs := List.length_drop bs ids
  rw [hdrop, totalBatches_succ ids.length bs hbs hn, List.range_succ_eq_map]
  simp only [List.map_cons, List.map_map, Nat.zero_mul, List.drop_zero]
  refine congrArg (ids.take bs :: ·) ?_
  refine List.map_congr_left ?_
  intro b hb
  simp only [Function.comp_apply]
  rw [List.drop_drop]
  refine congrArg (List.take bs) (congrArg ids.drop ?_)
  rw [Nat.succ_mul]
  omega

/-- Chunking the empty list yields no chunks. -/
theorem batchSlices_nil {α : Type} (bs : Nat) (hbs : 0 < bs) :
    batchSlices ([] : List α) bs = [] := by
  unfold batchSlices
  have h0 : (List.length ([] : List α) + bs - 1) / bs = 0 := by
    simp only [List.length_nil]
    exact Nat.div_eq_of_lt (by omega)
  rw [h0]
  rfl

/-- The chunks concatenate back to the input list. -/
theorem flatten_batchSlices {α : Type} (bs : Nat) (hbs : 0 < bs) :
    ∀ (n : Nat) (ids : List α), ids.length ≤ n → (batchSlices ids bs).flatten = ids := by
  intro n
  induction n with
  | zero =>
    intro ids h
    have : ids = [] := List.eq_nil_of_length_eq_zero (Nat.le_zero.mp h)
    subst this
    rw [batchSlices_nil bs hbs]
    rfl
  | succ n ih =>
    intro ids h
    by_cases hne : ids = []
    · subst hne
      rw [batchSlices_nil bs hbs]
      rfl
    · rw [batchSlices_cons bs hbs ids hne, List.flatten_cons,
        ih (ids.drop bs) (by rw [List.length_drop]; omega : (ids.drop bs).length ≤ n),
        List.take_append_drop]

/-- Folding `dict.update` over chunk results equals the concatenation of
the per-chunk results. -/
theorem foldl_append_eq_flatten {α β : Type} (f : α → List β) :
    ∀ (l : List α) (acc : List β),
      l.foldl (fun a c => a ++ f c) acc = acc ++ (l.map f).flatten := by
  intro l
  induction l with
  | nil => intro acc; simp
  | cons x xs ih =>
    intro acc
    rw [List.foldl_cons, ih, List.map_cons, List.flatten_cons, List.append_assoc]

/-- Concatenating per-chunk filterMaps equals one filterMap over the
concatenation. -/
theorem flatten_map_filterMap {α β : Type} (f : α → Option β) :
    ∀ (ls : List (List α)), (ls.map (List.filterMap f)).flatten = List.filterMap f ls.flatten := by
  intro ls
  induction ls with
  | nil => simp
  | cons x xs ih =>
    rw [List.map_cons, List.flatten_cons, List.flatten_cons, List.filterMap_append, ih]

/-- Core refinement: for a positive batch size, the chunked-and-merged
batch fetch equals one unchunked multiplexed request over the whole list. -/
theorem metadata_batch_merge_eq {α : Type} (respond : String → Except String α)
    (message_ids : List String) (batch_size : Nat) (hbs : 0 < batch_size) :
    get_messages_metadata_batch respond message_ids batch_size =
      _process_metadata_batch respond message_ids := by
  cases message_ids with
  | nil => rfl
  | cons x xs =>
    show (batchSlices (x :: xs) batch_size).foldl
        (fun acc chunk => acc ++ _process_metadata_batch respond chunk) [] =
      _process_metadata_batch respond (x :: xs)
    unfold _process_metadata_batch
    rw [foldl_append_eq_flatten, List.nil_append, flatten_map_filterMap,
      flatten_batchSlices batch_size hbs (x :: xs).length (x :: xs) (Nat.le_refl _)]

/-- C3: for every input id list and chunking (positive batch size), the
merged result mapping of the Batch Fetcher contains only keys drawn from
the input list — no id is fabricated by partial failure. -/
theorem metadata_batch_keys_subset {α : Type} (respond : String → Except String α)
    (message_ids : List String) (batch_size : Nat) (hbs : 0 < batch_size)
    (k : String)
    (hk : k ∈ (get_messages_metadata_batch respond message_ids batch_size).map Prod.fst) :
    k ∈ message_ids := by
  rw [metadata_batch_merge_eq respond message_ids batch_size hbs] at hk
  unfold _process_metadata_batch at hk
  rcases List.mem_map.mp hk with ⟨p, hp, hfst⟩
  rcases List.mem_filterMap.mp hp with ⟨msg_id, hid, hsome⟩
  cases hre : respond msg_id with
  | ok r =>
    rw [hre] at hsome
    simp only [Option.some.injEq] at hsome
    rw [← hfst, ← hsome]
    exact hid
  | error e =>
    rw [hre] at hsome
    exact absurd hsome (by simp)

/-- Witness for C3: with id m2 failing per-id and batch size 2, key m3 of
the merged mapping is indeed drawn from the input list. -/
theorem metadata_batch_keys_subset_witness :
    (0 < 2 ∧ "m3" ∈ (get_messages_metadata_batch
        (fun msg_id => if msg_id == "m2" then Except.error "boom" else Except.ok 0)
        ["m1", "m2", "m3"] 2).map Prod.fst) ∧
      "m3" ∈ ["m1", "m2", "m3"] :=
  ⟨⟨by decide, by decide⟩,
   metadata_batch_keys_subset
     (fun msg_id => if msg_id == "m2" then Except.error "boom" else Except.ok 0)
     ["m1", "m2", "m3"] 2 (by decide) "m3" (by decide)⟩

/-- C4: for every id list with distinct ids (batch request ids are unique
in a Gmail batch request, and the dict-as-list model is faithful exactly
then) and every positive batch size — dividing the length evenly or not —
chunked fetching merges to the same id-to-result mapping as one unchunked
multiplexed request over the whole list, for any per-id outcome oracle
(which may deliberately fail arbitrary ids). -/
theorem metadata_batch_eq_unchunked {α : Type} (respond : String → Except String α)
    (message_ids : List String) (batch_size : Nat)
    (hnodup : message_ids.Nodup) (hbs : 0 < batch_size) :
    get_messages_metadata_batch respond message_ids batch_size =
      _process_metadata_batch respond message_ids :=
  metadata_batch_merge_eq respond message_ids batch_size hbs

/-- Witness for C4: three distinct ids, batch size 2 (not dividing 3), and
a deliberately induced failure on id m2. -/
theorem metadata_batch_eq_unchunked_witness :
    (["m1", "m2", "m3"].Nodup ∧ 0 < 2) ∧
      get_messages_metadata_batch
          (fun msg_id => if msg_id == "m2" then Except.error "boom" else Except.ok 7)
          ["m1", "m2", "m3"] 2 =
        _process_metadata_batch
          (fun msg_id => if msg_id == "m2" then Except.error "boom" else Except.ok 7)
          ["m1", "m2", "m3"] :=
  ⟨⟨by decide, by decide⟩,
   metadata_batch_eq_unchunked
     (fun msg_id => if msg_id == "m2" then Except.error "boom" else Except.ok 7)
     ["m1", "m2", "m3"] 2 (by decide) (by decide)⟩

/-- Per-attachment upload outcome recorded into `upload_results`
(main.py lines 391-397 success path with `success = True`, lines 413-418
failure path with `success: False` and the error string). -/
inductive UploadOutcome where
  | ok (filename message_id s3_key : String) (size : Nat)
  | failed (filename message_id error : String)
deriving DecidableEq, Repr

/-- Body of the per-attachment loop of `fetch_and_upload_attachments`
(main.py lines 371-424).  `fetchAttachment` models
`service.users().messages().attachments().get(...).execute()` followed by
`base64.urlsafe_b64decode` (main.py lines 373-379); its `Except.error` is
any exception raised there.  `create_filename` may itself raise (modelled
`Except.error`, see C8); the source's single try/except catches either and
records a failure entry.  In the current source `upload_to_s3` is commented
out and `success = True` (lines 387-389), and the label marking is stubbed
to `True` (line 403), so the success path always records a success entry. -/
def processAttachment (fetchAttachment : String → String → Except String (List Nat))
    (sha : String → String) (metadata_lookup : List (String × MetadataEntry))
    (attachment_id message_id filename : String) : UploadOutcome :=
  match fetchAttachment attachment_id message_id with
  | Except.error e => UploadOutcome.failed filename message_id e
  | Except.ok file_data =>
    match create_filename sha attachment_id message_id filename metadata_lookup with
    | Except.error e => UploadOutcome.failed filename message_id e
    | Except.ok s3_key => UploadOutcome.ok filename message_id s3_key file_data.length

/-- Embedding of `fetch_and_upload_attachments` (main.py lines 343-433):
iterate `attachments_messages` (a dict attachment_id -> [message_id,
filename], modelled as an association list) and record one outcome per
attachment into `upload_results`; per-item exceptions are caught in the
loop body and recorded, then the loop continues.  The inter-request and
rate-limit `time.sleep` calls do not affect the computed results. -/
def fetch_and_upload_attachments (fetchAttachment : String → String → Except String (List Nat))
    (sha : String → String)
    (attachments_messages : List (String × String × String))
    (metadata_lookup : List (String × MetadataEntry)) : List (String × UploadOutcome) :=
  attachments_messages.map (fun am =>
    (am.1, processAttachment fetchAttachment sha metadata_lookup am.1 am.2.1 am.2.2))

/-- C2: a failure while processing one attachment is caught and recorded
in that attachment's outcome and never escapes the archival call: the
result carries exactly one outcome per input attachment (first conjunct,
for any oracles, failing or not), and an attachment whose fetch raises
gets a failure record with its error while the remaining attachments are
still processed (second conjunct). -/
theorem fetch_and_upload_isolates_failures
    (fetchAttachment : String → String → Except String (List Nat))
    (sha : String → String)
    (attachments_messages : List (String × String × String))
    (metadata_lookup : List (String × MetadataEntry)) :
    ((fetch_and_upload_attachments fetchAttachment sha attachments_messages metadata_lookup).map
        Prod.fst = attachments_messages.map (fun am => am.1)) ∧
    (∀ am ∈ attachments_messages, ∀ e, fetchAttachment am.1 am.2.1 = Except.error e →
      (am.1, UploadOutcome.failed am.2.2 am.2.1 e) ∈
        fetch_and_upload_attachments fetchAttachment sha attachments_messages metadata_lookup) := by
  constructor
  · unfold fetch_and_upload_attachments
    rw [List.map_map]
    rfl
  · intro am ham e he
    have hpa : processAttachment fetchAttachment sha metadata_lookup am.1 am.2.1 am.2.2
        = UploadOutcome.failed am.2.2 am.2.1 e := by
      unfold processAttachment
      rw [he]
    refine List.mem_map.mpr ⟨am, ham, ?_⟩
    show (am.1, processAttachment fetchAttachment sha metadata_lookup am.1 am.2.1 am.2.2)
        = (am.1, UploadOutcome.failed am.2.2 am.2.1 e)
    rw [hpa]

/-- Witness for C2: attachment a2 fails its fetch; a2 gets a failure
outcome recorded under its id. -/
theorem fetch_and_upload_isolates_failures_witness :
    (("a2", "m2", "f2.pdf") ∈
        ([("a1", "m1", "f1.pdf"), ("a2", "m2", "f2.pdf")] : List (String × String × String))) ∧
    ("a2", UploadOutcome.failed "f2.pdf" "m2" "boom") ∈
      fetch_and_upload_attachments
        (fun attachment_id _ => if attachment_id == "a2" then Except.error "boom" else Except.ok [1, 2, 3])
        (fun _ => "0a1b2c3d")
        [("a1", "m1", "f1.pdf"), ("a2", "m2", "f2.pdf")]
        [("m1", MetadataEntry.mk "Acme" "01/02/2025"), ("m2", MetadataEntry.mk "Bcme" "01/03/2025")] :=
  ⟨by decide,
   (fetch_and_upload_isolates_failures
     (fun attachment_id _ => if attachment_id == "a2" then Except.error "boom" else Except.ok [1, 2, 3])
     (fun _ => "0a1b2c3d")
     [("a1", "m1", "f1.pdf"), ("a2", "m2", "f2.pdf")]
     [("m1", MetadataEntry.mk "Acme" "01/02/2025"), ("m2", MetadataEntry.mk "Bcme" "01/03/2025")]).2
     ("a2", "m2", "f2.pdf") (by decide) "boom" rfl⟩

/-- One response of `service.users().messages().list` (main.py lines 17-33):
the page's message ids and whether a `nextPageToken` is present. -/
structure ListPage where
  messages : List String
  hasNextPageToken : Bool
deriving DecidableEq, Repr

/-- The pagination loop of `fetch_message_ids` (main.py lines 17-38) over a
trace of successive `list(...).execute()` outcomes: the first element
answers the initial request and each following element answers the request
made with the previous page's `nextPageToken`.  `Except.ok` collects the
page's messages and continues while a token is present; `Except.error` is
an exception raised by `execute()`.  An exhausted trace while a token is
still pending is an error (witnesses use complete traces). -/
def paginate : List (Except String ListPage) → Except String (List String)
  | [] => Except.error "no response"
  | Except.error e :: _ => Except.error e
  | Except.ok page :: rest =>
    if page.hasNextPageToken then
      match paginate rest with
      | Except.ok ids => Except.ok (page.messages ++ ids)
      | Except.error e => Except.error e
    else Except.ok page.messages

/-- Embedding of `fetch_message_ids` (main.py lines 12-42): the entire
pagination loop sits inside one try/except whose handler logs the error
and returns `[]` (lines 40-42), so any page error discards everything
gathered so far. -/
def fetch_message_ids (trace : List (Except String ListPage)) : List String :=
  match paginate trace with
  | Except.ok message_ids => message_ids
  | Except.error _ => []

/-- Counterexample to C7: the first page succeeds with id m1 and announces
a next page, the second page request raises; the claim says the ids
gathered from the succeeded pages (here [m1]) are returned, but the code
returns the empty list. -/
theorem fetch_message_ids_discards_partial :
    fetch_message_ids [Except.ok (ListPage.mk ["m1"] true), Except.error "503"] = [] ∧
      (([] : List String) ≠ ["m1"]) :=
  ⟨rfl, by decide⟩

/-- C7 as amended: a transport or auth error at any page makes
`fetch_message_ids` return the empty list — all ids gathered from earlier
successful pages are discarded by the single surrounding try/except — and
on an error-free complete trace it returns exactly the concatenation of
all pages' ids. -/
theorem fetch_message_ids_error_yields_empty (trace : List (Except String ListPage)) :
    (∀ e, paginate trace = Except.error e → fetch_message_ids trace = []) ∧
    (∀ message_ids, paginate trace = Except.ok message_ids →
        fetch_message_ids trace = message_ids) := by
  constructor
  · intro e he
    unfold fetch_message_ids
    rw [he]
  · intro message_ids h
    unfold fetch_message_ids
    rw [h]

/-- Witness for the amended C7: a concrete trace whose second page raises
a 401 yields the empty id list. -/
theorem fetch_message_ids_error_yields_empty_witness :
    paginate [Except.ok (ListPage.mk ["m2"] true), Except.error "401"] = Except.error "401" ∧
      fetch_message_ids [Except.ok (ListPage.mk ["m2"] true), Except.error "401"] = [] :=
  ⟨rfl,
   (fetch_message_ids_error_yields_empty
     [Except.ok (ListPage.mk ["m2"] true), Except.error "401"]).1 "401" rfl⟩

/-- One entry of the `headers` list of a Gmail metadata payload
(`message_data['payload']['headers']`, main.py line 160). -/
structure Header where
  name : String
  value : String
deriving DecidableEq, Repr

/-- Metadata of one message as consumed by `create_metadata_lookup`
(main.py lines 146-160): its `labelIds` and the headers of its payload.
The surrounding `payload` wrapper carries no other data used here. -/
structure MessageData where
  labelIds : List String
  headers : List Header
deriving DecidableEq, Repr

/-- The `headers_map` dict comprehension of main.py line 162: keys are
lowercased header names and a later duplicate overwrites an earlier one,
so a lookup finds the value of the last header whose lowercased name
matches. -/
def headersMapGet (headers : List Header) (key : String) : Option String :=
  (headers.reverse.find? (fun h => strLower h.name == key)).map (fun h => h.value)

/-- Python `a or b` over optional strings (main.py line 165): an absent
(`None`) or empty value falls through to `b`. -/
def pyOrStr (a b : Option String) : Option String :=
  match a with
  | some s => if s = "" then b else some s
  | none => b

/-- Modelled from the Python stdlib: `email.utils.parseaddr`, restricted
to the address shapes this pipeline sees — `Display Name <addr>` (the part
between the angle brackets is returned) or a bare address
(whitespace-stripped).  Returns the address component, the second element
of parseaddr's pair. -/
def parseaddrAddr (s : String) : String :=
  if strContainsChar s '<' then beforeFirstChar '>' (afterFirstChar '<' s)
  else trimWs s

/-- Vendor derivation of `create_metadata_lookup` (main.py lines 164-186):
the value of the local `vendor` when control reaches the check at line
198.  `delivered-to` falls back to `to` (Python `or`, so an empty value
also falls through); the address is parsed with `parseaddr`; with an `@`
present, the vendor is everything after the first `+` of the local part,
and no `+` leaves `vendor = None`.  Without a usable address the source
enters the label-fallback branch (lines 179-182), which calls
`get_vendor_from_label_id` — not defined anywhere in the repository, so it
raises `NameError`, caught by the per-message handler at line 207 — and in
any case never assigns `vendor` before `continue`, so that branch yields
no vendor; it is modelled as `none`. -/
def deriveVendor (headers : List Header) : Option String :=
  match pyOrStr (headersMapGet headers "delivered-to") (headersMapGet headers "to") with
  | none => none
  | some delivered_to =>
    if delivered_to = "" then none
    else
      let email_addr := parseaddrAddr delivered_to
      if email_addr ≠ "" ∧ strContainsChar email_addr '@' = true then
        let local_part := beforeFirstChar '@' email_addr
        if strContainsChar local_part '+' = true then
          some (afterFirstChar '+' local_part)
        else none
      else none

/-- Date derivation of `create_metadata_lookup` (main.py lines 188-195):
read header `date`; when present and nonempty, parse with the stdlib
`email.utils.parsedate_to_datetime` and format with `%m/%d/%Y` — modelled
by the oracle `parsedate`, whose `none` is a parsing exception (date stays
`None`). -/
def deriveDate (parsedate : String → Option String) (headers : List Header) : Option String :=
  match headersMapGet headers "date" with
  | none => none
  | some raw_date => if raw_date = "" then none else parsedate raw_date

/-- The local `vendor` at main.py line 198: derivation only runs under
`if headers:` (line 161); with an empty header list it stays `None`. -/
def vendorAt (message_data : MessageData) : Option String :=
  if message_data.headers.isEmpty then none else deriveVendor message_data.headers

/-- The local `date` at main.py line 198, same headers guard. -/
def dateAt (parsedate : String → Option String) (message_data : MessageData) : Option String :=
  if message_data.headers.isEmpty then none else deriveDate parsedate message_data.headers

/-- The per-message body of `create_metadata_lookup` (main.py lines
146-205): an entry is produced only when `vendor` is truthy (not `None`
and nonempty) and `date` is not `None` (line 198).  All skip paths — the
`continue` of the label fallback, the exception handler at lines 207-209,
and the final check failing — coincide with `vendor`/`date` not being
derived, hence with `none`. -/
def interpretItem (parsedate : String → Option String) (message_data : MessageData) :
    Option MetadataEntry :=
  match vendorAt message_data, dateAt parsedate message_data with
  | some v, some d => if v = "" then none else some (MetadataEntry.mk v d)
  | _, _ => none

/-- Embedding of `create_metadata_lookup` (main.py lines 132-213) over the
metadata map in insertion order (the ETL-Processed label check is
commented out in the source). -/
def create_metadata_lookup (parsedate : String → Option String)
    (message_metadata_map : List (String × MessageData)) : List (String × MetadataEntry) :=
  message_metadata_map.filterMap (fun im =>
    (interpretItem parsedate im.2).map (fun e => (im.1, e)))

/-- Embedding of `_process_single_batch` (main.py lines 257-299): the same
multiplexed batch mechanism as `_process_metadata_batch`, with format
"full"; `respond` models the per-id full-payload callback outcome. -/
def _process_single_batch {α : Type} (respond : String → Except String α)
    (message_ids : List String) : List (String × α) :=
  message_ids.filterMap (fun msg_id =>
    match respond msg_id with
    | Except.ok response => some (msg_id, response)
    | Except.error _ => none)

/-- Embedding of `get_messages_full_batch` (main.py lines 215-254): the
ids fetched are exactly `list(metadata_lookup.keys())` (line 227), chunked
and merged like the metadata fetch. -/
def get_messages_full_batch {α : Type} (respond : String → Except String α)
    (metadata_lookup : List (String × MetadataEntry)) (batch_size : Nat) : List (String × α) :=
  match metadata_lookup.map Prod.fst with
  | [] => []
  | x :: xs =>
    (batchSlices (x :: xs) batch_size).foldl
      (fun acc chunk => acc ++ _process_single_batch respond chunk) []

/-- Core refinement for the full-content variant: chunked-and-merged
fetching over the lookup's keys equals one unchunked multiplexed request
over them. -/
theorem full_batch_merge_eq {α : Type} (respond : String → Except String α)
    (metadata_lookup : List (String × MetadataEntry)) (batch_size : Nat)
    (hbs : 0 < batch_size) :
    get_messages_full_batch respond metadata_lookup batch_size =
      _process_single_batch respond (metadata_lookup.map Prod.fst) :=
  metadata_batch_merge_eq respond (metadata_lookup.map Prod.fst) batch_size hbs

/-- A produced lookup entry is exactly a truthy vendor plus a parsed date. -/
theorem interpretItem_eq_some_iff (parsedate : String → Option String)
    (message_data : MessageData) (e : MetadataEntry) :
    interpretItem parsedate message_data = some e ↔
      ∃ v d, vendorAt message_data = some v ∧ v ≠ "" ∧
        dateAt parsedate message_data = some d ∧ e = MetadataEntry.mk v d := by
  unfold interpretItem
  cases hv : vendorAt message_data with
  | none => simp
  | some v =>
    cases hd : dateAt parsedate message_data with
    | none => simp
    | some d =>
      show (if v = "" then none else some (MetadataEntry.mk v d)) = some e ↔
        ∃ v' d', some v = some v' ∧ v' ≠ "" ∧ some d = some d' ∧ e = MetadataEntry.mk v' d'
      by_cases hve : v = ""
      · subst hve
        simp
      · rw [if_neg hve]
        constructor
        · intro h
          exact ⟨v, d, rfl, hve, rfl, ((Option.some.injEq _ _).mp h).symm⟩
        · rintro ⟨v', d', hv', hv'ne, hd', he⟩
          obtain rfl : v = v' := (Option.some.injEq _ _).mp hv'
          obtain rfl : d = d' := (Option.some.injEq _ _).mp hd'
          rw [he]

/-- C5: the metadata lookup contains an entry for an item iff both a
truthy vendor and a date were derived from that item's headers (absence is
a silent filter, not an error), and the full-content fetch result only
ever carries ids present in the lookup (its requests range over
`list(metadata_lookup.keys())`). -/
theorem metadata_lookup_filters_and_full_fetch {α : Type}
    (parsedate : String → Option String)
    (message_metadata_map : List (String × MessageData))
    (respond : String → Except String α) (batch_size : Nat) (hbs : 0 < batch_size) :
    (∀ id e, (id, e) ∈ create_metadata_lookup parsedate message_metadata_map →
      ∃ md, (id, md) ∈ message_metadata_map ∧
        (∃ v, vendorAt md = some v ∧ v ≠ "") ∧ (dateAt parsedate md).isSome = true) ∧
    (∀ id md, (id, md) ∈ message_metadata_map →
      (∃ v, vendorAt md = some v ∧ v ≠ "") → (dateAt parsedate md).isSome = true →
      ∃ e, (id, e) ∈ create_metadata_lookup parsedate message_metadata_map) ∧
    (∀ k, k ∈ (get_messages_full_batch respond
          (create_metadata_lookup parsedate message_metadata_map) batch_size).map Prod.fst →
      k ∈ (create_metadata_lookup parsedate message_metadata_map).map Prod.fst) := by
  refine ⟨?_, ?_, ?_⟩
  · intro id e he
    unfold create_metadata_lookup at he
    rcases List.mem_filterMap.mp he with ⟨im, him, hsome⟩
    have hsome' : (interpretItem parsedate im.2).map (fun e => (im.1, e)) = some (id, e) := hsome
    rcases Option.map_eq_some'.mp hsome' with ⟨e', he', heq⟩
    have h1 : im.1 = id := congrArg Prod.fst heq
    rcases (interpretItem_eq_some_iff parsedate im.2 e').mp he' with ⟨v, d, hv, hvne, hd, _⟩
    refine ⟨im.2, ?_, ⟨v, hv, hvne⟩, ?_⟩
    · rw [← h1]
      exact him
    · rw [hd]
      rfl
  · intro id md hmem hv hd
    rcases hv with ⟨v, hv, hvne⟩
    rcases Option.isSome_iff_exists.mp hd with ⟨d, hdd⟩
    refine ⟨MetadataEntry.mk v d, ?_⟩
    unfold create_metadata_lookup
    refine List.mem_filterMap.mpr ⟨(id, md), hmem, ?_⟩
    have hi : interpretItem parsedate md = some (MetadataEntry.mk v d) :=
      (interpretItem_eq_some_iff parsedate md (MetadataEntry.mk v d)).mpr
        ⟨v, d, hv, hvne, hdd, rfl⟩
    show (interpretItem parsedate md).map (fun e => (id, e)) = some (id, MetadataEntry.mk v d)
    rw [hi]
    rfl
  · intro k hk
    rw [full_batch_merge_eq respond _ batch_size hbs] at hk
    unfold _process_single_batch at hk
    rcases List.mem_map.mp hk with ⟨p, hp, hfst⟩
    rcases List.mem_filterMap.mp hp with ⟨msg_id, hid, hsome⟩
    cases hre : respond msg_id with
    | ok resp =>
      rw [hre] at hsome
      simp only [Option.some.injEq] at hsome
      rw [← hfst, ← hsome]
      exact hid
    | error err =>
      rw [hre] at hsome
      exact absurd hsome (by simp)

/-- Witness for C5: one message whose headers yield vendor Acme and a
parseable date gets an entry, and the full-content fetch over the
resulting lookup (batch size 1) only returns that id. -/
theorem metadata_lookup_filters_and_full_fetch_witness :
    (0 < 1) ∧
    (∃ e, ("m1", e) ∈ create_metadata_lookup (fun _ => some "10/06/2025")
        [("m1", MessageData.mk []
          [Header.mk "To" "invoices+Acme@x.com", Header.mk "Date" "Mon, 6 Oct 2025 10:00:00 -0400"])]) ∧
    "m1" ∈ (create_metadata_lookup (fun _ => some "10/06/2025")
        [("m1", MessageData.mk []
          [Header.mk "To" "invoices+Acme@x.com", Header.mk "Date" "Mon, 6 Oct 2025 10:00:00 -0400"])]).map Prod.fst :=
  ⟨by decide,
   (metadata_lookup_filters_and_full_fetch (fun _ => some "10/06/2025")
     [("m1", MessageData.mk []
       [Header.mk "To" "invoices+Acme@x.com", Header.mk "Date" "Mon, 6 Oct 2025 10:00:00 -0400"])]
     (fun _ => Except.ok (0 : Nat)) 1 (by decide)).2.1 "m1"
     (MessageData.mk []
       [Header.mk "To" "invoices+Acme@x.com", Header.mk "Date" "Mon, 6 Oct 2025 10:00:00 -0400"])
     (by decide) ⟨"Acme", by decide, by decide⟩ (by decide),
   (metadata_lookup_filters_and_full_fetch (fun _ => some "10/06/2025")
     [("m1", MessageData.mk []
       [Header.mk "To" "invoices+Acme@x.com", Header.mk "Date" "Mon, 6 Oct 2025 10:00:00 -0400"])]
     (fun _ => Except.ok (0 : Nat)) 1 (by decide)).2.2 "m1" (by decide)⟩

/-- C6: an item whose only address header is `to: invoices+Acme@x.com`
yields vendor Acme — everything after the first `+` of the local part —
and an item whose address has no `+` in the local part gets no lookup
entry whatever its date header parses to (the label fallback of main.py
lines 179-182 never assigns a vendor: the looked-up function is undefined
in the repository, and its result would be discarded before `continue`
anyway). -/
theorem vendor_subaddress_and_no_plus (parsedate : String → Option String) :
    vendorAt (MessageData.mk [] [Header.mk "To" "invoices+Acme@x.com"]) = some "Acme" ∧
    interpretItem parsedate
      (MessageData.mk ["Label_22"]
        [Header.mk "To" "billing@x.com", Header.mk "Date" "Mon, 6 Oct 2025 10:00:00 -0400"]) = none := by
  constructor
  · decide
  · have hv : vendorAt
        (MessageData.mk ["Label_22"]
          [Header.mk "To" "billing@x.com", Header.mk "Date" "Mon, 6 Oct 2025 10:00:00 -0400"]) = none := by
      decide
    unfold interpretItem
    rw [hv]

/-- A Gmail content part as consumed by the extractor: declared filename
(`payload.get('filename', '')`, empty when absent), the attachment id of
its body (`payload.get('body', {}).get('attachmentId')`, `none` when
absent), and nested child parts (`payload.get('parts', [])`). -/
inductive Payload where
  | mk (filename : String) (attachmentId : Option String) (parts : List Payload)

/-- Declared filename of a part. -/
def Payload.filename : Payload → String
  | Payload.mk f _ _ => f

/-- Attachment id of a part's body. -/
def Payload.attachmentId : Payload → Option String
  | Payload.mk _ a _ => a

/-- Child parts of a part. -/
def Payload.parts : Payload → List Payload
  | Payload.mk _ _ p => p

/-- Embedding of `extract_attachments_from_payload` (helper_functions.py
lines 73-108): the part itself (no recursion into children) yields one
record when both the attachment id and the filename are truthy (present
and nonempty) and the lowercased filename ends with ".csv" or ".pdf";
every other part yields nothing (skipped without error). -/
def extract_attachments_from_payload (payload : Payload) : List (String × String) :=
  match payload.attachmentId with
  | none => []
  | some attachment_id =>
    if attachment_id ≠ "" ∧ payload.filename ≠ "" then
      if strEndsWith (strLower payload.filename) ".csv" = true ∨
          strEndsWith (strLower payload.filename) ".pdf" = true then
        [(attachment_id, payload.filename)]
      else []
    else []

/-- The tree walk of `get_attachments_messages` for one message
(main.py lines 313-330): extract from each immediate child of the root
payload and from each of that child's immediate children — and no deeper. -/
def collectAttachments (payload : Payload) : List (String × String) :=
  payload.parts.bind (fun part =>
    extract_attachments_from_payload part ++
      part.parts.bind (fun nested_part => extract_attachments_from_payload nested_part))

/-- Strict descendant in the content-part tree: a member of `parts` at any
depth below the given ancestor. -/
inductive Descendant : Payload → Payload → Prop
  | child {p q : Payload} : p ∈ q.parts → Descendant p q
  | step {p q r : Payload} : p ∈ q.parts → Descendant q r → Descendant p r

/-- Counterexample to C9: a qualifying part (nonempty pdf filename and
attachment id) sitting three levels below the root payload is a
descendant of the root, is accepted by the per-part extractor, yet is
absent from the collected attachments — the walk stops at the
grandchildren. -/
theorem extraction_misses_depth_three :
    Descendant (Payload.mk "inv.pdf" (some "A3") [])
      (Payload.mk "" none [Payload.mk "" none [Payload.mk "" none [Payload.mk "inv.pdf" (some "A3") []]]]) ∧
    ("A3", "inv.pdf") ∈ extract_attachments_from_payload (Payload.mk "inv.pdf" (some "A3") []) ∧
    ("A3", "inv.pdf") ∉ collectAttachments
      (Payload.mk "" none [Payload.mk "" none [Payload.mk "" none [Payload.mk "inv.pdf" (some "A3") []]]]) := by
  refine ⟨?_, by decide, by decide⟩
  exact Descendant.step (List.mem_singleton.mpr rfl)
    (Descendant.step (List.mem_singleton.mpr rfl)
      (Descendant.child (List.mem_singleton.mpr rfl)))

/-- C9 as amended: for every content-part tree, extraction collects a
record exactly when some part among the root's immediate children and
their immediate children (the top two levels below the root, and no
deeper) yields it. -/
theorem extraction_exactly_two_levels (root : Payload) (ar : String × String) :
    ar ∈ collectAttachments root ↔
      ∃ p, (p ∈ root.parts ∨ ∃ q, q ∈ root.parts ∧ p ∈ q.parts) ∧
        ar ∈ extract_attachments_from_payload p := by
  unfold collectAttachments
  constructor
  · intro h
    rcases List.mem_bind.mp h with ⟨part, hpart, hmem⟩
    rcases List.mem_append.mp hmem with h1 | h2
    · exact ⟨part, Or.inl hpart, h1⟩
    · rcases List.mem_bind.mp h2 with ⟨nested, hnested, hrec⟩
      exact ⟨nested, Or.inr ⟨part, hpart, hnested⟩, hrec⟩
  · rintro ⟨p, hp | ⟨q, hq, hpq⟩, hrec⟩
    · exact List.mem_bind.mpr ⟨p, hp, List.mem_append.mpr (Or.inl hrec)⟩
    · exact List.mem_bind.mpr
        ⟨q, hq, List.mem_append.mpr (Or.inr (List.mem_bind.mpr ⟨p, hpq, hrec⟩))⟩
